import Mathlib

/-!
Verification development for the harmonic-oscillator positional animation core.

The positional math of the program (trigger/easing computation in
src/components/NumberRow.tsx and src/unnamed/part_001, wrap-around mapping,
tail generation, focus tracking, clock controls) is embedded here.

The program's number type is modelled by the real numbers for the positional
math (the specification itself describes stepValue and displacements as real
numbers and demands real-valued floor semantics).  Where the behaviour of
non-finite values (NaN, Infinity) is itself the question, a small executable
model `JSNum` of the arithmetic fragment actually used by the head-position
computation is given over the rationals, with NaN and the infinities adjoined
and the usual propagation rules.
-/

open Real Filter Set Topology

/-- Tail styles, from src/unnamed/part_000 (type TailType). -/
inductive TailType where
  | classic
  | ghost
  | echo
  | stepped
  | glitch
deriving DecidableEq, Repr

/-- One renderable marker, from the element shape pushed onto `positions` in
src/components/NumberRow.tsx (lines 51, 63, 118).  The head push omits
`scale`; the renderer reads it back with a default of 1 (line 169,
`pos.scale ?? 1`), so the head marker here carries scale 1. -/
structure Marker where
  x : ℝ
  isHead : Bool
  opacity : ℝ
  scale : ℝ

/-- The inputs of the per-row computation: the props of the NumberRow
component (src/unnamed/part_000 NumberRowProps together with the extension in
src/components/NumberRow.tsx lines 4-7).  Fields that play no part in the
positional math (label, rowIndex, totalRows, colorPalette) are omitted. -/
structure RowInput where
  movementValue : ℝ
  currentStep : ℝ
  itemSize : ℝ
  wrapWidth : ℝ
  shouldWrap : Bool
  isTailEnabled : Bool
  isFollowEnabled : Bool
  tailType : TailType
  focusX : ℝ
  viewportWidth : ℝ

/-- src/components/NumberRow.tsx line 24: effectiveWrap = shouldWrap && !isFollowEnabled. -/
def effectiveWrap (r : RowInput) : Bool :=
  r.shouldWrap && !r.isFollowEnabled

/-- src/components/NumberRow.tsx lines 26-29: the wrap width truncated to a
whole number of lane units, with a minimum of one unit. -/
noncomputable def quantizedWrapWidth (wrapWidth itemSize : ℝ) : ℝ :=
  ((max (⌊wrapWidth / itemSize⌋) 1 : ℤ) : ℝ) * itemSize

/-- src/components/NumberRow.tsx line 40: transitionWidth = 0.5. -/
def transitionWidth : ℝ := 0.5

/-- src/components/NumberRow.tsx line 36: currentTriggerCount = Math.floor(N / v). -/
noncomputable def triggerCount (N v : ℝ) : ℤ := ⌊N / v⌋

/-- src/components/NumberRow.tsx lines 37-38: distance from N up to the next
integer multiple of v. -/
noncomputable def distToNext (N v : ℝ) : ℝ :=
  ((triggerCount N v : ℝ) + 1) * v - N

/-- The cubic ease used at src/components/NumberRow.tsx line 45:
easedT = t * t * (3 - 2 * t). -/
def smoothstep (t : ℝ) : ℝ := t * t * (3 - 2 * t)

/-- src/components/NumberRow.tsx lines 41-47: the trigger count with the
smoothstep easing applied inside the final transitionWidth of the approach. -/
noncomputable def animatedTriggerCount (N v : ℝ) : ℝ :=
  if distToNext N v < transitionWidth then
    (triggerCount N v : ℝ) + smoothstep (1 - distToNext N v / transitionWidth)
  else
    (triggerCount N v : ℝ)

/-- src/components/NumberRow.tsx lines 49-53: the head's absolute
displacement, animatedTriggerCount * (v * unitSize). -/
noncomputable def headDisplacement (N v unitSize : ℝ) : ℝ :=
  animatedTriggerCount N v * (v * unitSize)

/-- Truncation toward zero, the rounding used by the JavaScript % operator. -/
noncomputable def jsTrunc (x : ℝ) : ℤ :=
  if 0 ≤ x then ⌊x⌋ else -⌊-x⌋

/-- The JavaScript remainder operator a % b on real operands with b nonzero:
a - b * trunc (a / b).  Used at src/components/NumberRow.tsx line 57. -/
noncomputable def jsMod (a b : ℝ) : ℝ :=
  a - b * (jsTrunc (a / b) : ℝ)

/-- src/components/NumberRow.tsx lines 55-60: map an absolute displacement to
a renderer-local x, toroidally when wrapping, else camera-relative. -/
noncomputable def getRelativeX (r : RowInput) (absDisp : ℝ) : ℝ :=
  if effectiveWrap r = true then
    jsMod absDisp (quantizedWrapWidth r.wrapWidth r.itemSize)
  else
    absDisp - r.focusX + (r.viewportWidth / 2) - (r.itemSize / 2)

/-- src/components/NumberRow.tsx lines 66-87: the per-style iteration limit;
classic (the default) uses 80 wrapped and 40 unwrapped. -/
def tailLimit : TailType → Bool → ℕ
  | TailType.classic, true => 80
  | TailType.classic, false => 40
  | TailType.ghost, _ => 20
  | TailType.echo, _ => 60
  | TailType.stepped, _ => 100
  | TailType.glitch, _ => 30

/-- src/components/NumberRow.tsx lines 67, 80-83: index stride of the tail
loop; 3 for stepped, 1 otherwise. -/
def tailStepSize : TailType → ℕ
  | TailType.stepped => 3
  | _ => 1

/-- src/components/NumberRow.tsx lines 68, 72-86: base opacity per style. -/
def opacityBase : TailType → ℝ
  | TailType.classic => 0.4
  | TailType.ghost => 0.2
  | TailType.echo => 0.3
  | TailType.stepped => 0.4
  | TailType.glitch => 0.4

/-- src/components/NumberRow.tsx lines 93-120: the tail loop
for (k = 1; k <= limit; k += stepSize), with its two break conditions, the
per-style opacity / jitter / scale adjustments, and the opacity > 0.01
emission cutoff.  `animCount` is the animatedTriggerCount computed before the
loop (line 46); limit, stride and the lap start (lines 89-91) are recomputed
from the row input, which the source hoists out of the loop unchanged.  The
source's lapStartDisplacement is -Infinity when not wrapping, used only in
the conjunction on line 98, so the wrap test is folded into that conjunction
here.  The fuel argument starts at `limit`: with stride at least 1 the k-th
iteration has k ≥ fuel consumed + 1, so fuel `limit` reproduces the loop
bound k ≤ limit exactly. -/
noncomputable def tailLoop (r : RowInput) (animCount : ℝ) : ℕ → ℕ → List Marker
  | _, 0 => []
  | k, fuel + 1 =>
    let limit := tailLimit r.tailType (effectiveWrap r)
    let stepSize := tailStepSize r.tailType
    let unitStepInPixels := r.movementValue * r.itemSize
    let tailTriggerIndex : ℝ := animCount - (k : ℝ)
    let tailAbsoluteDisp := tailTriggerIndex * unitStepInPixels
    let lapStartDisplacement :=
      (⌊animCount * unitStepInPixels / quantizedWrapWidth r.wrapWidth r.itemSize⌋ : ℝ) *
        quantizedWrapWidth r.wrapWidth r.itemSize
    if limit < k then []
    else if tailTriggerIndex < 0 then []
    else if effectiveWrap r = true ∧ tailAbsoluteDisp < lapStartDisplacement then []
    else
      let tx0 := getRelativeX r tailAbsoluteDisp
      let baseOpacity := max 0 (opacityBase r.tailType * (1 - (k : ℝ) / (limit : ℝ)))
      let tailOpacity :=
        if r.tailType = TailType.echo then (if k < 10 then (0.25 : ℝ) else 0.05)
        else baseOpacity
      let tx :=
        if r.tailType = TailType.glitch then
          tx0 + Real.sin ((k : ℝ) * 1.5 + r.currentStep * 5) * 4
        else tx0
      let scale :=
        if r.tailType = TailType.stepped then max 0.6 (1 - (k : ℝ) / (limit : ℝ))
        else 1
      let rest := tailLoop r animCount (k + stepSize) fuel
      if 0.01 < tailOpacity then ⟨tx, false, tailOpacity, scale⟩ :: rest else rest

/-- src/components/NumberRow.tsx lines 31-123: the full per-row marker list,
head first, then the tail markers when the tail is enabled. -/
noncomputable def stepData (r : RowInput) : List Marker :=
  let animCount := animatedTriggerCount r.currentStep r.movementValue
  let headAbsoluteDisplacement := animCount * (r.movementValue * r.itemSize)
  ⟨getRelativeX r headAbsoluteDisplacement, true, 1, 1⟩ ::
    (if r.isTailEnabled = true then
      tailLoop r animCount 1 (tailLimit r.tailType (effectiveWrap r))
    else [])

/-- src/unnamed/part_001 lines 320-336: the App's leader x offset, computed by
the duplicated leader formula (v = 1) and scaled by the item size. -/
noncomputable def leaderXOffset (currentStep actualItemSize : ℝ) : ℝ :=
  let N := currentStep
  let curCount : ℤ := ⌊N / 1⌋
  let dist := ((curCount : ℝ) + 1) * 1 - N
  let animatedCount : ℝ :=
    if dist < transitionWidth then (curCount : ℝ) + smoothstep (1 - dist / transitionWidth)
    else (curCount : ℝ)
  animatedCount * actualItemSize

/-- src/unnamed/part_001 lines 338-340: focusX is the leader offset when
following, else 0. -/
def focusXOf (isFollowEnabled : Bool) (leaderX : ℝ) : ℝ :=
  if isFollowEnabled then leaderX else 0

/-- The leader NumberRow as the App instantiates it, src/unnamed/part_001
lines 396-411: movementValue 1, wrapWidth and viewportWidth both the window
width, focusX from the leader formula. -/
noncomputable def leaderRowInput (N u width : ℝ) (sw tailE : Bool) (tt : TailType)
    (follow : Bool) : RowInput :=
  ⟨1, N, u, width, sw, tailE, follow, tt, focusXOf follow (leaderXOffset N u), width⟩

/-- src/unnamed/part_001 lines 316-318: the follower indices
Array.from({ length: rowCount }, (_, i) => i + 1); empty when rowCount ≤ 0. -/
def followerRows (rowCount : ℤ) : List ℤ :=
  (List.range rowCount.toNat).map (fun i => (i : ℤ) + 1)

/-- Movement values of every row the App renders, src/unnamed/part_001 lines
396-431: the leader (movementValue 1) unconditionally, then one follower per
entry of followerRows with movementValue val + 1. -/
def appRowMovementValues (rowCount : ℤ) : List ℤ :=
  1 :: (followerRows rowCount).map (fun val => val + 1)

/-- src/unnamed/part_001 line 210: type SyncMode. -/
inductive SyncMode where
  | manual
  | seconds
  | ms
deriving DecidableEq, Repr

/-- The clock control state of the App, src/unnamed/part_001 lines 214-215,
223: currentStep, isPlaying and syncMode. -/
structure ClockControls where
  syncMode : SyncMode
  isPlaying : Bool
  currentStep : ℝ

/-- src/unnamed/part_001 lines 276-283: the play/pause handler. -/
def handlePlayPause (s : ClockControls) : ClockControls :=
  if s.syncMode ≠ SyncMode.manual then ⟨SyncMode.manual, false, s.currentStep⟩
  else ⟨s.syncMode, !s.isPlaying, s.currentStep⟩

/-- src/unnamed/part_001 lines 285-289: the step handler forces manual and
paused and moves the step value to floor + 1. -/
noncomputable def handleStep (s : ClockControls) : ClockControls :=
  ⟨SyncMode.manual, false, (⌊s.currentStep⌋ : ℝ) + 1⟩

/-- src/unnamed/part_001 lines 291-295: the reset handler. -/
def handleReset (_ : ClockControls) : ClockControls :=
  ⟨SyncMode.manual, false, 0⟩

/-- JavaScript numbers restricted to the arithmetic fragment the head-position
computation uses, with the finite values modelled by rationals and NaN and
the two infinities adjoined with their IEEE-754 propagation rules.  Used only
for the claims about non-finite and zero inputs, where the real-number model
cannot express the behaviour. -/
inductive JSNum where
  | nan
  | inf
  | ninf
  | fin (q : ℚ)
deriving DecidableEq, Repr

/-- JavaScript unary minus on JSNum. -/
def jsNeg : JSNum → JSNum
  | JSNum.nan => JSNum.nan
  | JSNum.inf => JSNum.ninf
  | JSNum.ninf => JSNum.inf
  | JSNum.fin q => JSNum.fin (-q)

/-- JavaScript addition on JSNum. -/
def jsAdd : JSNum → JSNum → JSNum
  | JSNum.nan, _ => JSNum.nan
  | _, JSNum.nan => JSNum.nan
  | JSNum.inf, JSNum.ninf => JSNum.nan
  | JSNum.ninf, JSNum.inf => JSNum.nan
  | JSNum.inf, _ => JSNum.inf
  | _, JSNum.inf => JSNum.inf
  | JSNum.ninf, _ => JSNum.ninf
  | _, JSNum.ninf => JSNum.ninf
  | JSNum.fin a, JSNum.fin b => JSNum.fin (a + b)

/-- JavaScript subtraction on JSNum. -/
def jsSub (a b : JSNum) : JSNum := jsAdd a (jsNeg b)

/-- JavaScript multiplication on JSNum. -/
def jsMul : JSNum → JSNum → JSNum
  | JSNum.nan, _ => JSNum.nan
  | _, JSNum.nan => JSNum.nan
  | JSNum.inf, JSNum.inf => JSNum.inf
  | JSNum.inf, JSNum.ninf => JSNum.ninf
  | JSNum.ninf, JSNum.inf => JSNum.ninf
  | JSNum.ninf, JSNum.ninf => JSNum.inf
  | JSNum.inf, JSNum.fin q => if q = 0 then JSNum.nan else if 0 < q then JSNum.inf else JSNum.ninf
  | JSNum.fin q, JSNum.inf => if q = 0 then JSNum.nan else if 0 < q then JSNum.inf else JSNum.ninf
  | JSNum.ninf, JSNum.fin q => if q = 0 then JSNum.nan else if 0 < q then JSNum.ninf else JSNum.inf
  | JSNum.fin q, JSNum.ninf => if q = 0 then JSNum.nan else if 0 < q then JSNum.ninf else JSNum.inf
  | JSNum.fin a, JSNum.fin b => JSNum.fin (a * b)

/-- JavaScript division on JSNum; in particular finite / 0 is an infinity of
the numerator's sign and 0 / 0 is NaN. -/
def jsDiv : JSNum → JSNum → JSNum
  | JSNum.nan, _ => JSNum.nan
  | _, JSNum.nan => JSNum.nan
  | JSNum.inf, JSNum.inf => JSNum.nan
  | JSNum.inf, JSNum.ninf => JSNum.nan
  | JSNum.ninf, JSNum.inf => JSNum.nan
  | JSNum.ninf, JSNum.ninf => JSNum.nan
  | JSNum.inf, JSNum.fin q => if 0 ≤ q then JSNum.inf else JSNum.ninf
  | JSNum.ninf, JSNum.fin q => if 0 ≤ q then JSNum.ninf else JSNum.inf
  | JSNum.fin _, JSNum.inf => JSNum.fin 0
  | JSNum.fin _, JSNum.ninf => JSNum.fin 0
  | JSNum.fin a, JSNum.fin b =>
    if b = 0 then (if a = 0 then JSNum.nan else if 0 < a then JSNum.inf else JSNum.ninf)
    else JSNum.fin (a / b)

/-- JavaScript Math.floor on JSNum. -/
def jsFloor : JSNum → JSNum
  | JSNum.nan => JSNum.nan
  | JSNum.inf => JSNum.inf
  | JSNum.ninf => JSNum.ninf
  | JSNum.fin q => JSNum.fin ⌊q⌋

/-- The JavaScript < comparison on JSNum; any comparison with NaN is false. -/
def jsLt : JSNum → JSNum → Bool
  | JSNum.nan, _ => false
  | _, JSNum.nan => false
  | JSNum.inf, _ => false
  | JSNum.ninf, JSNum.ninf => false
  | JSNum.ninf, _ => true
  | JSNum.fin _, JSNum.inf => true
  | JSNum.fin _, JSNum.ninf => false
  | JSNum.fin a, JSNum.fin b => decide (a < b)

/-- Truncation toward zero on the rationals, for the JSNum remainder. -/
def jsTruncQ (q : ℚ) : ℤ := if 0 ≤ q then ⌊q⌋ else -⌊-q⌋

/-- The JavaScript % operator on JSNum: NaN when the dividend is non-finite
or the divisor is 0, a - b * trunc (a / b) on finite operands. -/
def jsRem : JSNum → JSNum → JSNum
  | JSNum.nan, _ => JSNum.nan
  | _, JSNum.nan => JSNum.nan
  | JSNum.inf, _ => JSNum.nan
  | JSNum.ninf, _ => JSNum.nan
  | JSNum.fin a, JSNum.inf => JSNum.fin a
  | JSNum.fin a, JSNum.ninf => JSNum.fin a
  | JSNum.fin a, JSNum.fin b =>
    if b = 0 then JSNum.nan else JSNum.fin (a - b * (jsTruncQ (a / b) : ℚ))

/-- The head-marker position computation of src/components/NumberRow.tsx
lines 32-62, transcribed over JSNum: trigger count, easing branch, absolute
displacement, and the wrap or camera-relative mapping. -/
def jsHeadX (N v unitSize : JSNum) (effWrap : Bool)
    (W focusX viewportWidth : JSNum) : JSNum :=
  let currentTriggerCount := jsFloor (jsDiv N v)
  let nextTriggerAt := jsMul (jsAdd currentTriggerCount (JSNum.fin 1)) v
  let distToNext := jsSub nextTriggerAt N
  let t := jsSub (JSNum.fin 1) (jsDiv distToNext (JSNum.fin (1/2)))
  let easedT := jsMul (jsMul t t) (jsSub (JSNum.fin 3) (jsMul (JSNum.fin 2) t))
  let animated :=
    if jsLt distToNext (JSNum.fin (1/2)) then jsAdd currentTriggerCount easedT
    else currentTriggerCount
  let unitStep := jsMul v unitSize
  let headAbs := jsMul animated unitStep
  if effWrap then jsRem headAbs W
  else jsSub (jsAdd (jsSub headAbs focusX) (jsDiv viewportWidth (JSNum.fin 2))) (jsDiv unitSize (JSNum.fin 2))

/-! Helper lemmas about the ease curve and the trigger computation. -/

lemma transitionWidth_pos : (0 : ℝ) < transitionWidth := by norm_num [transitionWidth]

lemma smoothstep_zero : smoothstep 0 = 0 := by norm_num [smoothstep]

lemma smoothstep_one : smoothstep 1 = 1 := by norm_num [smoothstep]

lemma smoothstep_nonneg {t : ℝ} (_h0 : 0 ≤ t) (h1 : t ≤ 1) : 0 ≤ smoothstep t := by
  unfold smoothstep; nlinarith

lemma smoothstep_le_one {t : ℝ} (h0 : 0 ≤ t) (_h1 : t ≤ 1) : smoothstep t ≤ 1 := by
  unfold smoothstep; nlinarith [sq_nonneg (1 - t)]

lemma smoothstep_mono {a b : ℝ} (h0 : 0 ≤ a) (hab : a ≤ b) (h1 : b ≤ 1) :
    smoothstep a ≤ smoothstep b := by
  unfold smoothstep
  nlinarith [mul_nonneg h0 (sub_nonneg.mpr hab), mul_nonneg (sub_nonneg.mpr hab) (sub_nonneg.mpr h1),
    mul_nonneg h0 (sub_nonneg.mpr h1), sq_nonneg (a - b), sq_nonneg (a + b)]

lemma continuous_smoothstep : Continuous smoothstep := by
  unfold smoothstep; continuity

/-- The easing formula of one trigger interval, extended to a globally
continuous function of N by clamping the ease parameter at 0.  On the
interval where the floor equals m it agrees with animatedTriggerCount. -/
noncomputable def easedPiece (m : ℤ) (v N : ℝ) : ℝ :=
  (m : ℝ) + smoothstep (max 0 (1 - (((m : ℝ) + 1) * v - N) / transitionWidth))

lemma continuous_easedPiece (m : ℤ) (v : ℝ) : Continuous (easedPiece m v) := by
  unfold easedPiece
  exact continuous_const.add (continuous_smoothstep.comp
    (continuous_const.max ((continuous_const.sub
      ((continuous_const.sub continuous_id).div_const _)))))

lemma triggerCount_eq (N v : ℝ) (hv : 0 < v) (m : ℤ) (h1 : (m : ℝ) * v ≤ N)
    (h2 : N < ((m : ℝ) + 1) * v) : triggerCount N v = m := by
  unfold triggerCount
  rw [Int.floor_eq_iff]
  constructor
  · rw [le_div_iff₀ hv]; exact h1
  · rw [div_lt_iff₀ hv]; exact_mod_cast h2


lemma distToNext_pos (N v : ℝ) (hv : 0 < v) : 0 < distToNext N v := by
  unfold distToNext triggerCount
  have h := Int.lt_floor_add_one (N / v)
  have h2 : N < ((⌊N / v⌋ : ℝ) + 1) * v := by
    rw [← div_lt_iff₀ hv]; exact_mod_cast h
  linarith

lemma distToNext_eq (N v : ℝ) (m : ℤ) (hm : triggerCount N v = m) :
    distToNext N v = ((m : ℝ) + 1) * v - N := by
  unfold distToNext; rw [hm]

lemma animatedTriggerCount_eq_easedPiece (N v : ℝ) (hv : 0 < v) (m : ℤ)
    (hm : triggerCount N v = m) : animatedTriggerCount N v = easedPiece m v N := by
  have hd := distToNext_eq N v m hm
  have hdpos : 0 < ((m : ℝ) + 1) * v - N := hd ▸ distToNext_pos N v hv
  unfold animatedTriggerCount easedPiece
  rw [hm, hd]
  by_cases h : ((m : ℝ) + 1) * v - N < transitionWidth
  · rw [if_pos h]
    have harg : 0 ≤ 1 - (((m : ℝ) + 1) * v - N) / transitionWidth := by
      have := (div_lt_one transitionWidth_pos).mpr h
      linarith
    rw [max_eq_right harg]
  · rw [if_neg h]
    have harg : 1 - (((m : ℝ) + 1) * v - N) / transitionWidth ≤ 0 := by
      push_neg at h
      have := (one_le_div transitionWidth_pos).mpr h
      linarith
    rw [max_eq_left harg, smoothstep_zero, add_zero]

lemma le_animatedTriggerCount (N v : ℝ) (hv : 0 < v) :
    (triggerCount N v : ℝ) ≤ animatedTriggerCount N v := by
  unfold animatedTriggerCount
  by_cases h : distToNext N v < transitionWidth
  · rw [if_pos h]
    have hdpos := distToNext_pos N v hv
    have h0 : 0 ≤ 1 - distToNext N v / transitionWidth := by
      have := (div_lt_one transitionWidth_pos).mpr h
      linarith
    have h1 : 1 - distToNext N v / transitionWidth ≤ 1 := by
      have := div_nonneg hdpos.le transitionWidth_pos.le
      linarith
    have := smoothstep_nonneg h0 h1
    linarith
  · rw [if_neg h]

lemma animatedTriggerCount_le (N v : ℝ) (hv : 0 < v) :
    animatedTriggerCount N v ≤ (triggerCount N v : ℝ) + 1 := by
  unfold animatedTriggerCount
  by_cases h : distToNext N v < transitionWidth
  · rw [if_pos h]
    have hdpos := distToNext_pos N v hv
    have h0 : 0 ≤ 1 - distToNext N v / transitionWidth := by
      have := (div_lt_one transitionWidth_pos).mpr h
      linarith
    have h1 : 1 - distToNext N v / transitionWidth ≤ 1 := by
      have := div_nonneg hdpos.le transitionWidth_pos.le
      linarith
    have := smoothstep_le_one h0 h1
    linarith
  · rw [if_neg h]; linarith

lemma animatedTriggerCount_nonneg (N v : ℝ) (hv : 0 < v) (hN : 0 ≤ N) :
    0 ≤ animatedTriggerCount N v := by
  have h1 : (0 : ℝ) ≤ (triggerCount N v : ℝ) := by
    unfold triggerCount
    exact_mod_cast Int.floor_nonneg.mpr (div_nonneg hN hv.le)
  linarith [le_animatedTriggerCount N v hv]

lemma animatedTriggerCount_mono (v N1 N2 : ℝ) (hv : 0 < v) (h12 : N1 ≤ N2) :
    animatedTriggerCount N1 v ≤ animatedTriggerCount N2 v := by
  have hm : triggerCount N1 v ≤ triggerCount N2 v := by
    unfold triggerCount
    exact Int.floor_le_floor (by gcongr)
  rcases eq_or_lt_of_le hm with he | hl
  · rw [animatedTriggerCount_eq_easedPiece N1 v hv (triggerCount N1 v) rfl,
      animatedTriggerCount_eq_easedPiece N2 v hv (triggerCount N1 v) he.symm]
    unfold easedPiece
    apply add_le_add_left
    set m : ℝ := (triggerCount N1 v : ℝ)
    have hd2pos : 0 < (m + 1) * v - N2 := by
      have := distToNext_pos N2 v hv
      rw [distToNext_eq N2 v (triggerCount N1 v) he.symm] at this
      exact this
    apply smoothstep_mono (le_max_left _ _)
    · apply max_le_max le_rfl
      have : ((m + 1) * v - N2) / transitionWidth ≤ ((m + 1) * v - N1) / transitionWidth := by
        gcongr
        exact transitionWidth_pos.le
      linarith
    · apply max_le (by norm_num)
      have := div_nonneg hd2pos.le transitionWidth_pos.le
      linarith
  · have h1 : animatedTriggerCount N1 v ≤ (triggerCount N1 v : ℝ) + 1 :=
      animatedTriggerCount_le N1 v hv
    have h2 : (triggerCount N1 v : ℝ) + 1 ≤ (triggerCount N2 v : ℝ) := by
      exact_mod_cast hl
    have h3 := le_animatedTriggerCount N2 v hv
    linarith

lemma easedPiece_left_end (m : ℤ) (v : ℝ) (hv : 1 ≤ v) :
    easedPiece m v ((m : ℝ) * v) = (m : ℝ) := by
  unfold easedPiece
  have hsimp : ((m : ℝ) + 1) * v - (m : ℝ) * v = v := by ring
  have h : 1 - (((m : ℝ) + 1) * v - (m : ℝ) * v) / transitionWidth ≤ 0 := by
    rw [hsimp, transitionWidth]
    have hdiv : v / (0.5 : ℝ) = 2 * v := by ring
    rw [hdiv]
    linarith
  rw [max_eq_left h, smoothstep_zero, add_zero]

lemma easedPiece_right_end (m : ℤ) (v : ℝ) :
    easedPiece m v (((m : ℝ) + 1) * v) = (m : ℝ) + 1 := by
  unfold easedPiece
  have hsimp : ((m : ℝ) + 1) * v - ((m : ℝ) + 1) * v = 0 := by ring
  rw [hsimp, zero_div, sub_zero, max_eq_right (by norm_num : (0:ℝ) ≤ 1), smoothstep_one]

lemma triggerCount_mul_le (x v : ℝ) (hv : 0 < v) : (triggerCount x v : ℝ) * v ≤ x := by
  unfold triggerCount
  have h := Int.floor_le (x / v)
  calc (⌊x / v⌋ : ℝ) * v ≤ (x / v) * v := mul_le_mul_of_nonneg_right h hv.le
  _ = x := div_mul_cancel₀ x hv.ne'

lemma lt_triggerCount_succ_mul (x v : ℝ) (hv : 0 < v) :
    x < ((triggerCount x v : ℝ) + 1) * v := by
  unfold triggerCount
  have h := Int.lt_floor_add_one (x / v)
  rw [← div_lt_iff₀ hv]
  exact_mod_cast h

lemma animatedTriggerCount_continuousAt (v : ℝ) (hv : 1 ≤ v) (x : ℝ) :
    ContinuousAt (fun N => animatedTriggerCount N v) x := by
  have hv0 : (0 : ℝ) < v := lt_of_lt_of_le one_pos hv
  set m : ℤ := triggerCount x v with hm
  have hmle : (m : ℝ) * v ≤ x := triggerCount_mul_le x v hv0
  have hxlt : x < ((m : ℝ) + 1) * v := lt_triggerCount_succ_mul x v hv0
  rcases eq_or_lt_of_le hmle with heq | hlt
  · -- x sits exactly on the trigger boundary m * v
    have hfx : animatedTriggerCount x v = (m : ℝ) := by
      rw [animatedTriggerCount_eq_easedPiece x v hv0 m hm.symm, ← heq,
        easedPiece_left_end m v hv]
    have hprev : easedPiece (m - 1) v x = (m : ℝ) := by
      have hx2 : x = (((m - 1 : ℤ) : ℝ) + 1) * v := by push_cast; linarith
      rw [hx2, easedPiece_right_end]; push_cast; ring
    rw [continuousAt_iff_continuous_left_right]
    constructor
    · apply ContinuousWithinAt.congr_of_eventuallyEq
        ((continuous_easedPiece (m - 1) v).continuousAt.continuousWithinAt)
      · filter_upwards [Ioc_mem_nhdsWithin_Iic
          (show x ∈ Ioc (x - v) x from ⟨by linarith, le_refl x⟩)] with N hN
        rcases lt_or_eq_of_le hN.2 with hNlt | hNeq
        · apply animatedTriggerCount_eq_easedPiece N v hv0 (m - 1)
          apply triggerCount_eq N v hv0
          · push_cast; nlinarith [hN.1]
          · push_cast; nlinarith
        · rw [hNeq, hfx, hprev]
      · rw [hfx, hprev]
    · apply ContinuousWithinAt.congr_of_eventuallyEq
        ((continuous_easedPiece m v).continuousAt.continuousWithinAt)
      · filter_upwards [Ico_mem_nhdsWithin_Ici
          (show x ∈ Ico x (((m : ℝ) + 1) * v) from ⟨le_refl x, hxlt⟩)] with N hN
        exact animatedTriggerCount_eq_easedPiece N v hv0 m
          (triggerCount_eq N v hv0 m (le_trans hmle hN.1) hN.2)
      · exact animatedTriggerCount_eq_easedPiece x v hv0 m hm.symm
  · -- x lies strictly inside the interval of floor m
    apply ContinuousAt.congr (continuous_easedPiece m v).continuousAt
    filter_upwards [Ioo_mem_nhds hlt hxlt] with N hN
    exact (animatedTriggerCount_eq_easedPiece N v hv0 m
      (triggerCount_eq N v hv0 m hN.1.le hN.2)).symm

lemma animatedTriggerCount_continuous (v : ℝ) (hv : 1 ≤ v) :
    Continuous fun N => animatedTriggerCount N v :=
  continuous_iff_continuousAt.mpr (animatedTriggerCount_continuousAt v hv)

lemma animatedTriggerCount_at_multiple (v : ℝ) (hv : 1 ≤ v) (m : ℤ) :
    animatedTriggerCount ((m : ℝ) * v) v = (m : ℝ) := by
  have hv0 : (0 : ℝ) < v := lt_of_lt_of_le one_pos hv
  have htc : triggerCount ((m : ℝ) * v) v = m := by
    unfold triggerCount
    rw [mul_div_assoc, div_self hv0.ne', mul_one, Int.floor_intCast]
  rw [animatedTriggerCount_eq_easedPiece ((m : ℝ) * v) v hv0 m htc,
    easedPiece_left_end m v hv]

/-- C1: for every movementValue v ≥ 1, the map N ↦ animatedTriggerCount N v is
continuous (so headDisplacement is too for every unitSize), and at every
trigger boundary N = m * v with m ≥ 1 the value is exactly m, which is also
the limit of animatedTriggerCount as N approaches m * v from below — the
eased count reaches triggerCount + 1 exactly as triggerCount increments and
the ease resets, so there is no jump. -/
theorem claim_C1 (v : ℝ) (hv : 1 ≤ v) :
    Continuous (fun N => animatedTriggerCount N v) ∧
    (∀ u : ℝ, Continuous fun N => headDisplacement N v u) ∧
    (∀ m : ℤ, 1 ≤ m →
      animatedTriggerCount ((m : ℝ) * v) v = (m : ℝ) ∧
      Tendsto (fun N => animatedTriggerCount N v) (𝓝[<] ((m : ℝ) * v)) (𝓝 (m : ℝ))) := by
  refine ⟨animatedTriggerCount_continuous v hv, ?_, ?_⟩
  · intro u
    unfold headDisplacement
    exact (animatedTriggerCount_continuous v hv).mul continuous_const
  · intro m _
    refine ⟨animatedTriggerCount_at_multiple v hv m, ?_⟩
    have h1 := (animatedTriggerCount_continuousAt v hv ((m : ℝ) * v)).tendsto
    rw [animatedTriggerCount_at_multiple v hv m] at h1
    exact h1.mono_left nhdsWithin_le_nhds

/-- Witness for C1 at v = 1, m = 1. -/
theorem claim_C1_witness :
    animatedTriggerCount (((1 : ℤ) : ℝ) * 1) 1 = ((1 : ℤ) : ℝ) :=
  ((claim_C1 1 (by norm_num)).2.2 1 (by norm_num)).1

/-- C2 counterexample: with v = 1 and unitSize = 1, the inputs N1 = 0 and
N2 = 1/4 satisfy every hypothesis of the claim (v ≥ 1, unitSize > 0,
0 ≤ N1 < N2) yet headDisplacement does not strictly increase: both values
are 0, because animatedTriggerCount is constant outside the easing window. -/
theorem claim_C2_counterexample :
    (1 : ℝ) ≤ 1 ∧ (0 : ℝ) < 1 ∧ (0 : ℝ) ≤ 0 ∧ (0 : ℝ) < (1 / 4 : ℝ) ∧
    ¬ headDisplacement 0 1 1 < headDisplacement (1 / 4) 1 1 := by
  refine ⟨le_refl 1, one_pos, le_refl 0, by norm_num, ?_⟩
  have h0 : headDisplacement 0 1 1 = 0 := by
    norm_num [headDisplacement, animatedTriggerCount, distToNext, triggerCount, transitionWidth]
  have h1 : headDisplacement (1 / 4) 1 1 = 0 := by
    norm_num [headDisplacement, animatedTriggerCount, distToNext, triggerCount, transitionWidth]
  rw [h0, h1]
  exact lt_irrefl 0

/-- C2 amended: for fixed movementValue v ≥ 1 and unitSize > 0,
headDisplacement is monotone non-decreasing in N (it is constant on the
plateau between easing windows, so strict increase fails there). -/
theorem claim_C2_amended (v u N1 N2 : ℝ) (hv : 1 ≤ v) (hu : 0 < u)
    (_h0 : 0 ≤ N1) (h12 : N1 ≤ N2) :
    headDisplacement N1 v u ≤ headDisplacement N2 v u := by
  unfold headDisplacement
  have hv0 : (0 : ℝ) < v := lt_of_lt_of_le one_pos hv
  exact mul_le_mul_of_nonneg_right (animatedTriggerCount_mono v N1 N2 hv0 h12)
    (mul_nonneg hv0.le hu.le)

/-- Witness for the amended C2 at v = 1, u = 1, N1 = 0, N2 = 1. -/
theorem claim_C2_witness : headDisplacement 0 1 1 ≤ headDisplacement 1 1 1 :=
  claim_C2_amended 1 1 0 1 le_rfl one_pos le_rfl zero_le_one

lemma jsTrunc_of_nonneg (x : ℝ) (hx : 0 ≤ x) : jsTrunc x = ⌊x⌋ := if_pos hx

lemma jsMod_nonneg (a b : ℝ) (ha : 0 ≤ a) (hb : 0 < b) : 0 ≤ jsMod a b := by
  unfold jsMod
  rw [jsTrunc_of_nonneg _ (div_nonneg ha hb.le)]
  have h := Int.floor_le (a / b)
  have h2 : b * ((⌊a / b⌋ : ℤ) : ℝ) ≤ b * (a / b) := mul_le_mul_of_nonneg_left h hb.le
  have h3 : b * (a / b) = a := by field_simp
  linarith

lemma jsMod_lt (a b : ℝ) (ha : 0 ≤ a) (hb : 0 < b) : jsMod a b < b := by
  unfold jsMod
  rw [jsTrunc_of_nonneg _ (div_nonneg ha hb.le)]
  have h : a / b < ((⌊a / b⌋ : ℤ) : ℝ) + 1 := Int.lt_floor_add_one (a / b)
  have h2 : a < b * (((⌊a / b⌋ : ℤ) : ℝ) + 1) := (div_lt_iff₀' hb).mp h
  nlinarith

lemma quantizedWrapWidth_pos (ww u : ℝ) (hu : 0 < u) : 0 < quantizedWrapWidth ww u := by
  unfold quantizedWrapWidth
  have h1 : (1 : ℤ) ≤ max ⌊ww / u⌋ 1 := le_max_right _ _
  have h2 : (1 : ℝ) ≤ ((max ⌊ww / u⌋ 1 : ℤ) : ℝ) := by exact_mod_cast h1
  nlinarith

lemma getRelativeX_wrapped_bounds (r : RowInput) (heff : effectiveWrap r = true)
    (hu : 0 < r.itemSize) (d : ℝ) (hd : 0 ≤ d) :
    0 ≤ getRelativeX r d ∧ getRelativeX r d < quantizedWrapWidth r.wrapWidth r.itemSize := by
  have hW : 0 < quantizedWrapWidth r.wrapWidth r.itemSize := quantizedWrapWidth_pos _ _ hu
  unfold getRelativeX
  rw [if_pos heff]
  exact ⟨jsMod_nonneg d _ hd hW, jsMod_lt d _ hd hW⟩

lemma tailLoop_length (r : RowInput) (a : ℝ) :
    ∀ fuel k, (tailLoop r a k fuel).length ≤ fuel := by
  intro fuel
  induction fuel with
  | zero => intro k; simp [tailLoop]
  | succ n ih =>
    intro k
    simp only [tailLoop]
    split_ifs
    all_goals first
      | exact Nat.zero_le _
      | exact Nat.succ_le_succ (ih _)
      | exact le_trans (ih _) (Nat.le_succ n)

lemma tailLoop_isHead (r : RowInput) (a : ℝ) :
    ∀ fuel k, ∀ m ∈ tailLoop r a k fuel, m.isHead = false := by
  intro fuel
  induction fuel with
  | zero => intro k m hm; simp [tailLoop] at hm
  | succ n ih =>
    intro k m hm
    simp only [tailLoop] at hm
    split_ifs at hm
    all_goals first
      | exact absurd hm (List.not_mem_nil m)
      | exact ih _ m hm
      | (rcases List.mem_cons.mp hm with h | h
         · rw [h]
         · exact ih _ m h)

lemma tailLoop_wrapped_mem (r : RowInput) (a : ℝ) (heff : effectiveWrap r = true)
    (hng : r.tailType ≠ TailType.glitch) (hvu : 0 ≤ r.movementValue * r.itemSize)
    (hu : 0 < r.itemSize) :
    ∀ fuel k, ∀ m ∈ tailLoop r a k fuel,
      0 ≤ m.x ∧ m.x < quantizedWrapWidth r.wrapWidth r.itemSize := by
  intro fuel
  induction fuel with
  | zero => intro k m hm; simp [tailLoop] at hm
  | succ n ih =>
    intro k m hm
    simp only [tailLoop] at hm
    split_ifs at hm
    all_goals first
      | exact absurd hm (List.not_mem_nil m)
      | exact ih _ m hm
      | exact absurd (by assumption) hng
      | (rcases List.mem_cons.mp hm with h | h
         · (rw [h]
            exact getRelativeX_wrapped_bounds r heff hu _
              (mul_nonneg (by linarith [not_lt.mp (by assumption : ¬ a - (k : ℝ) < 0)]) hvu))
         · exact ih _ m h)

lemma tailLimit_pos (tt : TailType) (b : Bool) : 0 < tailLimit tt b := by
  cases tt <;> cases b <;> norm_num [tailLimit]

lemma tailLoop_classic_step (r : RowInput) (a : ℝ) (hc : r.tailType = TailType.classic)
    (k n : ℕ) :
    tailLoop r a k (n + 1) =
      if tailLimit TailType.classic (effectiveWrap r) < k then []
      else if a - (k : ℝ) < 0 then []
      else if effectiveWrap r = true ∧
          (a - (k : ℝ)) * (r.movementValue * r.itemSize) <
            (⌊a * (r.movementValue * r.itemSize) / quantizedWrapWidth r.wrapWidth r.itemSize⌋ : ℝ) *
              quantizedWrapWidth r.wrapWidth r.itemSize then []
      else if 0.01 < max 0 (0.4 * (1 - (k : ℝ) / (tailLimit TailType.classic (effectiveWrap r) : ℝ))) then
        ⟨getRelativeX r ((a - (k : ℝ)) * (r.movementValue * r.itemSize)), false,
          max 0 (0.4 * (1 - (k : ℝ) / (tailLimit TailType.classic (effectiveWrap r) : ℝ))), 1⟩ ::
          tailLoop r a (k + 1) n
      else tailLoop r a (k + 1) n := by
  simp only [tailLoop, hc, tailStepSize, opacityBase,
    if_neg (show ¬ TailType.classic = TailType.echo by decide),
    if_neg (show ¬ TailType.classic = TailType.glitch by decide),
    if_neg (show ¬ TailType.classic = TailType.stepped by decide)]

lemma classic_div_step (L : ℝ) (hL : 0 < L) (k : ℕ) :
    0.4 * (1 - ((k + 1 : ℕ) : ℝ) / L) ≤ 0.4 * (1 - (k : ℝ) / L) := by
  have hdiv : (k : ℝ) / L ≤ ((k + 1 : ℕ) : ℝ) / L := by
    gcongr
    exact_mod_cast Nat.le_succ k
  nlinarith

lemma tailLoop_classic_mem_opacity (r : RowInput) (a : ℝ) (hc : r.tailType = TailType.classic) :
    ∀ fuel k, ∀ m ∈ tailLoop r a k fuel,
      0.01 < m.opacity ∧
      m.opacity ≤ 0.4 * (1 - (k : ℝ) / (tailLimit TailType.classic (effectiveWrap r) : ℝ)) := by
  have hL : (0 : ℝ) < (tailLimit TailType.classic (effectiveWrap r) : ℝ) := by
    exact_mod_cast tailLimit_pos TailType.classic (effectiveWrap r)
  intro fuel
  induction fuel with
  | zero => intro k m hm; simp [tailLoop] at hm
  | succ n ih =>
    intro k m hm
    rw [tailLoop_classic_step r a hc] at hm
    split_ifs at hm with h1 h2 h3 h4
    · exact absurd hm (List.not_mem_nil m)
    · exact absurd hm (List.not_mem_nil m)
    · exact absurd hm (List.not_mem_nil m)
    · rcases List.mem_cons.mp hm with h | h
      · have hx : (0 : ℝ) ≤ 0.4 * (1 - (k : ℝ) / (tailLimit TailType.classic (effectiveWrap r) : ℝ)) := by
          by_contra hneg
          push_neg at hneg
          rw [max_eq_left hneg.le] at h4
          norm_num at h4
        rw [h]
        exact ⟨h4, le_of_eq (max_eq_right hx)⟩
      · obtain ⟨ho, hb⟩ := ih (k + 1) m h
        exact ⟨ho, le_trans hb (classic_div_step _ hL k)⟩
    · obtain ⟨ho, hb⟩ := ih (k + 1) m hm
      exact ⟨ho, le_trans hb (classic_div_step _ hL k)⟩

lemma tailLoop_classic_pairwise (r : RowInput) (a : ℝ) (hc : r.tailType = TailType.classic) :
    ∀ fuel k, (tailLoop r a k fuel).Pairwise (fun p q => q.opacity < p.opacity) := by
  have hL : (0 : ℝ) < (tailLimit TailType.classic (effectiveWrap r) : ℝ) := by
    exact_mod_cast tailLimit_pos TailType.classic (effectiveWrap r)
  intro fuel
  induction fuel with
  | zero => intro k; simp [tailLoop]
  | succ n ih =>
    intro k
    rw [tailLoop_classic_step r a hc]
    split_ifs with h1 h2 h3 h4
    · exact List.Pairwise.nil
    · exact List.Pairwise.nil
    · exact List.Pairwise.nil
    · refine List.Pairwise.cons ?_ (ih (k + 1))
      intro q hq
      obtain ⟨hqo, hqb⟩ := tailLoop_classic_mem_opacity r a hc n (k + 1) q hq
      have hx : (0 : ℝ) ≤ 0.4 * (1 - (k : ℝ) / (tailLimit TailType.classic (effectiveWrap r) : ℝ)) := by
        by_contra hneg
        push_neg at hneg
        rw [max_eq_left hneg.le] at h4
        norm_num at h4
      show q.opacity <
        max 0 (0.4 * (1 - (k : ℝ) / (tailLimit TailType.classic (effectiveWrap r) : ℝ)))
      rw [max_eq_right hx]
      have hstrict : 0.4 * (1 - ((k + 1 : ℕ) : ℝ) / (tailLimit TailType.classic (effectiveWrap r) : ℝ)) <
          0.4 * (1 - (k : ℝ) / (tailLimit TailType.classic (effectiveWrap r) : ℝ)) := by
        have hdiv : (k : ℝ) / (tailLimit TailType.classic (effectiveWrap r) : ℝ) <
            ((k + 1 : ℕ) : ℝ) / (tailLimit TailType.classic (effectiveWrap r) : ℝ) := by
          gcongr
          exact_mod_cast Nat.lt_succ_self k
        nlinarith
      linarith
    · exact ih (k + 1)

/-- C6: for every row input, the number of emitted trailing markers (the
marker list past the head) never exceeds the style's limit — 80/40 for
classic depending on wrap, 20 for ghost, 60 for echo, 100 for stepped, 30
for glitch, as encoded by tailLimit — and for the classic style the emitted
tail opacities are strictly decreasing along the list (i.e. with k), up to
the opacity ≤ 0.01 cutoff at which markers are omitted. -/
theorem claim_C6 (r : RowInput) :
    ((stepData r).drop 1).length ≤ tailLimit r.tailType (effectiveWrap r) ∧
    (r.tailType = TailType.classic →
      ((stepData r).drop 1).Pairwise fun p q => q.opacity < p.opacity) := by
  have hdrop : (stepData r).drop 1 =
      if r.isTailEnabled = true then
        tailLoop r (animatedTriggerCount r.currentStep r.movementValue) 1
          (tailLimit r.tailType (effectiveWrap r))
      else [] := by
    simp [stepData]
  rw [hdrop]
  constructor
  · split_ifs
    · exact tailLoop_length r _ _ 1
    · simp
  · intro hc
    split_ifs
    · exact tailLoop_classic_pairwise r _ hc _ 1
    · exact List.Pairwise.nil

/-- Witness for C6 on a concrete classic wrapped row. -/
theorem claim_C6_witness :
    ((stepData ⟨1, 0, 1, 10, true, true, false, TailType.classic, 0, 10⟩).drop 1).Pairwise
      (fun p q => q.opacity < p.opacity) :=
  (claim_C6 ⟨1, 0, 1, 10, true, true, false, TailType.classic, 0, 10⟩).2 rfl

/-- C10: for every row input with movementValue ≥ 1, the marker list is
non-empty, its first element is the head marker with isHead = true and
opacity = 1, every later element is a non-head marker, and with the tail
disabled the list is exactly the head marker. -/
theorem claim_C10 (r : RowInput) (_hv : 1 ≤ r.movementValue) :
    stepData r ≠ [] ∧
    (∃ mk rest, stepData r = mk :: rest ∧ mk.isHead = true ∧ mk.opacity = 1 ∧
      (∀ q ∈ rest, q.isHead = false) ∧
      (r.isTailEnabled = false → rest = [])) := by
  constructor
  · simp [stepData]
  · refine ⟨_, _, rfl, rfl, rfl, ?_, ?_⟩
    · intro q hq
      by_cases ht : r.isTailEnabled = true
      · rw [if_pos ht] at hq
        exact tailLoop_isHead r _ _ 1 q hq
      · rw [if_neg ht] at hq
        exact absurd hq (List.not_mem_nil q)
    · intro ht
      rw [ht]
      simp

/-- Witness for C10 on a concrete row with the tail disabled. -/
theorem claim_C10_witness :
    stepData ⟨1, 0, 1, 10, true, false, false, TailType.classic, 0, 10⟩ ≠ [] :=
  (claim_C10 ⟨1, 0, 1, 10, true, false, false, TailType.classic, 0, 10⟩ le_rfl).1

/-- C7: from every clock state, the play/pause control sets mode to Manual
and playing to false when the mode is not Manual (it does not resume
motion), and toggles playing when the mode is already Manual; the step value
is untouched either way. -/
theorem claim_C7 (s : ClockControls) :
    (s.syncMode ≠ SyncMode.manual →
      handlePlayPause s = ⟨SyncMode.manual, false, s.currentStep⟩) ∧
    (s.syncMode = SyncMode.manual →
      handlePlayPause s = ⟨SyncMode.manual, !s.isPlaying, s.currentStep⟩) := by
  constructor
  · intro h
    simp [handlePlayPause, h]
  · intro h
    simp [handlePlayPause, h]

/-- Witness for C7 from the wall-seconds playing state. -/
theorem claim_C7_witness :
    handlePlayPause ⟨SyncMode.seconds, true, 0⟩ = ⟨SyncMode.manual, false, 0⟩ :=
  (claim_C7 ⟨SyncMode.seconds, true, 0⟩).1 (by decide)

/-- C8 counterexample: at rowCount = 0 the follower list is empty, yet the
App still renders the leader row unconditionally, so the rendered row set is
[1], not empty as the claim asserts. -/
theorem claim_C8_counterexample :
    followerRows 0 = [] ∧ appRowMovementValues 0 = [1] ∧ (appRowMovementValues 0).length ≠ 0 :=
  ⟨rfl, rfl, by simp [appRowMovementValues]⟩

/-- C8 amended: for every rowCount ≤ 0 the follower row set is empty and
nothing faults, but the leader row is still rendered, so the rendered row
set consists of exactly the one leader row. -/
theorem claim_C8_amended (rc : ℤ) (hrc : rc ≤ 0) :
    followerRows rc = [] ∧ (appRowMovementValues rc).length = 1 := by
  have h : rc.toNat = 0 := Int.toNat_of_nonpos hrc
  constructor
  · simp [followerRows, h]
  · simp [appRowMovementValues, followerRows, h]

/-- Witness for the amended C8 at rowCount = -3. -/
theorem claim_C8_witness : followerRows (-3) = [] ∧ (appRowMovementValues (-3)).length = 1 :=
  claim_C8_amended (-3) (by norm_num)

/-- C4 counterexample: a row with movementValue = 0 is not skipped — the
marker list still contains the head marker (here with the tail disabled, the
list is non-empty), and in JavaScript number semantics the head computation
does evaluate N / 0: at N = 0 the division yields NaN, which propagates to
the head position rather than being avoided. -/
theorem claim_C4_counterexample :
    stepData ⟨0, 0, 1, 10, true, false, false, TailType.classic, 0, 10⟩ ≠ [] ∧
    jsHeadX (JSNum.fin 0) (JSNum.fin 0) (JSNum.fin 1) true (JSNum.fin 10) (JSNum.fin 0)
      (JSNum.fin 10) = JSNum.nan := by
  constructor
  · simp [stepData]
  · norm_num [jsHeadX, jsDiv, jsFloor, jsAdd, jsMul, jsSub, jsNeg, jsLt, jsRem, jsTruncQ]

/-- C4 amended: the per-row computation has no movementValue = 0 guard at
all; instead the App's row construction makes the fault structurally
impossible — every rendered row's movementValue is at least 1 (the leader
has 1, follower i has i + 2), so the division N / movementValue never sees a
zero divisor for any constructed row. -/
theorem claim_C4_amended (rc mv : ℤ) (hmem : mv ∈ appRowMovementValues rc) : 1 ≤ mv := by
  simp only [appRowMovementValues, followerRows] at hmem
  simp at hmem
  rcases hmem with h | ⟨a, ⟨i, hi, hia⟩, hmv⟩
  · omega
  · have hnn : (0 : ℤ) ≤ (i : ℤ) := Int.natCast_nonneg i
    omega

/-- Witness for the amended C4: the leader row of a 2-row configuration. -/
theorem claim_C4_witness : (1 : ℤ) ∈ appRowMovementValues 2 ∧ (1 : ℤ) ≤ 1 :=
  ⟨by decide, claim_C4_amended 2 1 (by decide)⟩

/-- C9 counterexample: the layout computation does not clamp a non-finite
stepValue to 0 — with stepValue = NaN the head position is NaN, which
differs from the head position 0 produced at stepValue = 0 on the same
configuration, contradicting the claimed equality of marker positions. -/
theorem claim_C9_counterexample :
    jsHeadX JSNum.nan (JSNum.fin 1) (JSNum.fin 1) true (JSNum.fin 10) (JSNum.fin 0)
        (JSNum.fin 10) ≠
      jsHeadX (JSNum.fin 0) (JSNum.fin 1) (JSNum.fin 1) true (JSNum.fin 10) (JSNum.fin 0)
        (JSNum.fin 10) := by
  have h1 : jsHeadX JSNum.nan (JSNum.fin 1) (JSNum.fin 1) true (JSNum.fin 10) (JSNum.fin 0)
      (JSNum.fin 10) = JSNum.nan := by
    simp [jsHeadX, jsDiv, jsFloor, jsAdd, jsMul, jsSub, jsNeg, jsLt, jsRem]
  have h2 : jsHeadX (JSNum.fin 0) (JSNum.fin 1) (JSNum.fin 1) true (JSNum.fin 10) (JSNum.fin 0)
      (JSNum.fin 10) = JSNum.fin 0 := by
    norm_num [jsHeadX, jsDiv, jsFloor, jsAdd, jsMul, jsSub, jsNeg, jsLt, jsRem, jsTruncQ]
  rw [h1, h2]
  simp

/-- C9 amended: a NaN stepValue is used unclamped and propagates through the
whole head-position computation to a NaN marker position, for every
movementValue, unitSize, wrap flag, wrap width, focus and viewport width. -/
theorem claim_C9_amended (v u : JSNum) (effW : Bool) (W f vw : JSNum) :
    jsHeadX JSNum.nan v u effW W f vw = JSNum.nan := by
  simp [jsHeadX, jsDiv, jsFloor, jsAdd, jsMul, jsSub, jsNeg, jsLt, jsRem]

/-- The App's duplicated leader formula (src/unnamed/part_001 lines 320-336)
agrees with the PositionEngine head displacement at v = 1. -/
lemma leaderXOffset_eq_headDisplacement (N u : ℝ) :
    leaderXOffset N u = headDisplacement N 1 u := by
  simp [leaderXOffset, headDisplacement, animatedTriggerCount, distToNext, triggerCount]

/-- C5: when following, the App computes the focus with the identical leader
formula used for row 0's own marker (leaderXOffset equals the v = 1 head
displacement), and consequently the leader row's own head marker sits at
exactly viewportExtent / 2 - unitSize / 2; the claim's integer-stepValue
hypothesis is recorded although the identity holds for every stepValue. -/
theorem claim_C5 (N u width : ℝ) (sw tailE : Bool) (tt : TailType) (n : ℤ)
    (_hN : N = (n : ℝ)) :
    leaderXOffset N u = headDisplacement N 1 u ∧
    ∃ rest, stepData (leaderRowInput N u width sw tailE tt true) =
      ⟨width / 2 - u / 2, true, 1, 1⟩ :: rest := by
  refine ⟨leaderXOffset_eq_headDisplacement N u, ?_⟩
  have heff : effectiveWrap (leaderRowInput N u width sw tailE tt true) = false := by
    simp [effectiveWrap, leaderRowInput]
  have hx : getRelativeX (leaderRowInput N u width sw tailE tt true)
      (animatedTriggerCount N 1 * (1 * u)) = width / 2 - u / 2 := by
    unfold getRelativeX
    rw [heff, if_neg Bool.false_ne_true]
    simp only [leaderRowInput, focusXOf, eq_self_iff_true, if_true]
    rw [leaderXOffset_eq_headDisplacement]
    unfold headDisplacement
    ring
  refine ⟨(if (leaderRowInput N u width sw tailE tt true).isTailEnabled = true then
      tailLoop (leaderRowInput N u width sw tailE tt true) (animatedTriggerCount N 1) 1
        (tailLimit tt (effectiveWrap (leaderRowInput N u width sw tailE tt true)))
    else []), ?_⟩
  rw [← hx]
  rfl

/-- C3 amended: in wrapped mode with stepValue ≥ 0, movementValue ≥ 1 and a
positive item size, the head marker of every style and every tail marker of
the non-glitch styles has relativePosition inside [0, quantizedWrapWidth);
the glitch style's trailing markers are exempt because their sinusoidal
jitter is added after the wrap mapping. -/
theorem claim_C3_amended (r : RowInput) (heff : effectiveWrap r = true)
    (hN : 0 ≤ r.currentStep) (hv : 1 ≤ r.movementValue) (hu : 0 < r.itemSize) :
    ∀ m ∈ stepData r, (m.isHead = true ∨ r.tailType ≠ TailType.glitch) →
      0 ≤ m.x ∧ m.x < quantizedWrapWidth r.wrapWidth r.itemSize := by
  intro m hm hdisj
  have hv0 : (0 : ℝ) < r.movementValue := lt_of_lt_of_le one_pos hv
  have hvu : 0 ≤ r.movementValue * r.itemSize := mul_nonneg hv0.le hu.le
  have hanim : 0 ≤ animatedTriggerCount r.currentStep r.movementValue :=
    animatedTriggerCount_nonneg _ _ hv0 hN
  simp only [stepData] at hm
  rcases List.mem_cons.mp hm with h | h
  · rw [h]
    exact getRelativeX_wrapped_bounds r heff hu _ (mul_nonneg hanim hvu)
  · have h2 : m ∈ tailLoop r (animatedTriggerCount r.currentStep r.movementValue) 1
        (tailLimit r.tailType (effectiveWrap r)) := by
      by_cases ht : r.isTailEnabled = true
      · rw [if_pos ht] at h
        exact h
      · rw [if_neg ht] at h
        exact absurd h (List.not_mem_nil m)
    rcases hdisj with hh | hng
    · have hf := tailLoop_isHead r _ _ 1 m h2
      rw [hh] at hf
      exact absurd hf (by simp)
    · exact tailLoop_wrapped_mem r _ heff hng hvu hu _ 1 m h2

/-- Witness for the amended C3: the head marker of a concrete wrapped row. -/
theorem claim_C3_witness :
    ∃ m ∈ stepData (⟨1, 0, 1, 10, true, true, false, TailType.classic, 0, 10⟩ : RowInput),
      0 ≤ m.x ∧ m.x < quantizedWrapWidth 10 1 :=
  ⟨⟨getRelativeX (⟨1, 0, 1, 10, true, true, false, TailType.classic, 0, 10⟩ : RowInput)
      (animatedTriggerCount 0 1 * (1 * 1)), true, 1, 1⟩,
    List.mem_cons_self _ _,
    claim_C3_amended ⟨1, 0, 1, 10, true, true, false, TailType.classic, 0, 10⟩ rfl le_rfl
      le_rfl one_pos _ (List.mem_cons_self _ _) (Or.inl rfl)⟩

/-- One unrolling of the tail loop for the glitch style. -/
lemma tailLoop_glitch_step (r : RowInput) (a : ℝ) (hc : r.tailType = TailType.glitch)
    (k n : ℕ) :
    tailLoop r a k (n + 1) =
      if tailLimit TailType.glitch (effectiveWrap r) < k then []
      else if a - (k : ℝ) < 0 then []
      else if effectiveWrap r = true ∧
          (a - (k : ℝ)) * (r.movementValue * r.itemSize) <
            (⌊a * (r.movementValue * r.itemSize) / quantizedWrapWidth r.wrapWidth r.itemSize⌋ : ℝ) *
              quantizedWrapWidth r.wrapWidth r.itemSize then []
      else if 0.01 < max 0 (0.4 * (1 - (k : ℝ) / (tailLimit TailType.glitch (effectiveWrap r) : ℝ))) then
        ⟨getRelativeX r ((a - (k : ℝ)) * (r.movementValue * r.itemSize)) +
            Real.sin ((k : ℝ) * 1.5 + r.currentStep * 5) * 4, false,
          max 0 (0.4 * (1 - (k : ℝ) / (tailLimit TailType.glitch (effectiveWrap r) : ℝ))), 1⟩ ::
          tailLoop r a (k + 1) n
      else tailLoop r a (k + 1) n := by
  simp only [tailLoop, hc, tailStepSize, opacityBase, eq_self_iff_true, if_true,
    if_neg (show ¬ TailType.glitch = TailType.echo by decide),
    if_neg (show ¬ TailType.glitch = TailType.stepped by decide)]

/-- C3 counterexample: in wrapped mode with the glitch style, movementValue 1,
unitSize 1, wrap width 10 and stepValue N = (11π - 3) / 10 ≥ 0, the k = 1
trailing marker has relativePosition 2 + 4·sin(11π/2) = -2 < 0, outside
[0, quantizedWrapWidth) — the jitter is applied after the wrap mapping, so
the claimed bound fails for glitch tail markers. -/
theorem claim_C3_counterexample :
    effectiveWrap (⟨1, (11 * Real.pi - 3) / 10, 1, 10, true, true, false, TailType.glitch, 0, 10⟩ : RowInput) = true ∧
    0 ≤ (11 * Real.pi - 3) / 10 ∧
    ∃ m ∈ stepData (⟨1, (11 * Real.pi - 3) / 10, 1, 10, true, true, false, TailType.glitch, 0, 10⟩ : RowInput),
      m.x < 0 := by
  have hpi1 : 3 < Real.pi := Real.pi_gt_three
  have hpi2 : Real.pi < 3.15 := Real.pi_lt_d2
  set N : ℝ := (11 * Real.pi - 3) / 10 with hNdef
  have hN1 : (3 : ℝ) ≤ N := by rw [hNdef]; linarith
  have hN2 : N ≤ 3.5 := by rw [hNdef]; linarith
  refine ⟨rfl, by linarith, ?_⟩
  set rg : RowInput := ⟨1, N, 1, 10, true, true, false, TailType.glitch, 0, 10⟩ with hrg
  have htc : triggerCount N 1 = 3 := by
    unfold triggerCount
    rw [div_one]
    rw [Int.floor_eq_iff]
    constructor
    · exact_mod_cast hN1
    · push_cast; linarith
  have hanim : animatedTriggerCount N 1 = 3 := by
    unfold animatedTriggerCount
    rw [distToNext_eq N 1 3 htc, htc]
    rw [if_neg]
    · norm_num
    · rw [transitionWidth]; push_cast; norm_num; linarith
  have hcg : rg.tailType = TailType.glitch := rfl
  have htlim2 : tailLimit TailType.glitch (effectiveWrap rg) = 30 := rfl
  have hsd : stepData rg =
      ⟨getRelativeX rg (animatedTriggerCount N 1 * (1 * 1)), true, 1, 1⟩ ::
        tailLoop rg 3 1 30 := by
    simp only [stepData, if_true]
    rw [hanim, htlim2]
  have hc1 : ¬ tailLimit TailType.glitch (effectiveWrap rg) < 1 := by
    rw [hrg]
    norm_num [effectiveWrap, tailLimit]
  have hc2 : ¬ ((3 : ℝ) - ((1 : ℕ) : ℝ) < 0) := by push_cast; norm_num
  have hc3 : ¬ (effectiveWrap rg = true ∧
      ((3 : ℝ) - ((1 : ℕ) : ℝ)) * (rg.movementValue * rg.itemSize) <
        (⌊(3 : ℝ) * (rg.movementValue * rg.itemSize) /
            quantizedWrapWidth rg.wrapWidth rg.itemSize⌋ : ℝ) *
          quantizedWrapWidth rg.wrapWidth rg.itemSize) := by
    intro hcon
    have hb := hcon.2
    rw [hrg] at hb
    norm_num [quantizedWrapWidth] at hb
  have hc4 : (0.01 : ℝ) < max 0 (0.4 * (1 - ((1 : ℕ) : ℝ) /
      (tailLimit TailType.glitch (effectiveWrap rg) : ℝ))) := by
    rw [hrg]
    norm_num [effectiveWrap, tailLimit, lt_max_iff]
  have htl : tailLoop rg 3 1 30 =
      ⟨getRelativeX rg (((3 : ℝ) - ((1 : ℕ) : ℝ)) * (rg.movementValue * rg.itemSize)) +
          Real.sin (((1 : ℕ) : ℝ) * 1.5 + rg.currentStep * 5) * 4, false,
        max 0 (0.4 * (1 - ((1 : ℕ) : ℝ) / (tailLimit TailType.glitch (effectiveWrap rg) : ℝ))), 1⟩ ::
        tailLoop rg 3 (1 + 1) 29 := by
    rw [show (30 : ℕ) = 29 + 1 from rfl, tailLoop_glitch_step rg 3 hcg 1 29]
    rw [if_neg hc1, if_neg hc2, if_neg hc3, if_pos hc4]
  have hgx : getRelativeX rg (((3 : ℝ) - ((1 : ℕ) : ℝ)) * (rg.movementValue * rg.itemSize)) = 2 := by
    rw [hrg]
    norm_num [getRelativeX, effectiveWrap, jsMod, jsTrunc, quantizedWrapWidth]
  have hsin : Real.sin (((1 : ℕ) : ℝ) * 1.5 + rg.currentStep * 5) = -1 := by
    have h1 : rg.currentStep = N := by rw [hrg]
    rw [h1]
    have harg : ((1 : ℕ) : ℝ) * 1.5 + N * 5 =
        Real.pi / 2 + Real.pi + ((2 : ℤ) : ℝ) * (2 * Real.pi) := by
      rw [hNdef]; push_cast; ring
    rw [harg, Real.sin_add_int_mul_two_pi, Real.sin_add_pi, Real.sin_pi_div_two]
  rw [hsd, htl]
  refine ⟨_, List.mem_cons_of_mem _ (List.mem_cons_self _ _), ?_⟩
  show getRelativeX rg (((3 : ℝ) - ((1 : ℕ) : ℝ)) * (rg.movementValue * rg.itemSize)) +
      Real.sin (((1 : ℕ) : ℝ) * 1.5 + rg.currentStep * 5) * 4 < 0
  rw [hgx, hsin]
  norm_num

/-- Witness for C5 at stepValue 0 (an integer), unitSize 2, width 10. -/
theorem claim_C5_witness : leaderXOffset 0 2 = headDisplacement 0 1 2 :=
  (claim_C5 0 2 10 true false TailType.classic 0 (by norm_num)).1
